import Mathlib

/-!
Verification of the video-download orchestration pipeline of `downloader.py`.

The development shallowly embeds the pure fragments of the script
(`format_size`, `progress_callback`, `get_video_filename`) as Lean
functions, and the stateful orchestrator (`download_videos`) as a function
over an explicit environment (configuration, collaborator outcomes) and an
explicit filesystem state.

Numeric modelling notes.  Python computes `format_size` and the progress
percentage in IEEE-754 doubles.  Conversion of an `int` below 2^53 to a
double is exact and division by 1024 only shifts the exponent, so the
running value in `format_size` is exactly `n / 1024 ^ k` after `k`
divisions; we track that dyadic rational exactly as the pair `(n, k)`.
Rendering with `"%.1f"` is the correctly rounded (round-half-to-even)
one-decimal form of the double, which for these exact values coincides
with round-half-even applied to the exact rational, implemented below on
integers by `roundHalfEvenDiv`.
-/

/-- Decimal digits of `n`, least significant first, computed with explicit
fuel so that the kernel can evaluate it.  `digitsFuel n n` is the full
digit list of `n`. -/
def digitsFuel : ℕ → ℕ → List ℕ
  | 0, _ => []
  | fuel + 1, n => if n = 0 then [] else n % 10 :: digitsFuel fuel (n / 10)

/-- Decimal rendering of a natural number, as produced by Python's string
formatting of a nonnegative integer. -/
def natRepr (n : ℕ) : String :=
  if n = 0 then "0"
  else String.mk (((digitsFuel n n).map Nat.digitChar).reverse)

/-- Python's `format(n, "0wd")` / `f"{n:0wd}"` zero padding (for a
nonnegative integer): pad the decimal form on the left with zeros up to
width `w`. -/
def zeroPad (w n : ℕ) : String :=
  String.mk (List.replicate (w - (natRepr n).length) '0') ++ natRepr n

/-- Round-half-to-even of the rational `N / D` (for `D > 0`): the rounding
used by IEEE-754 / Python float formatting. -/
def roundHalfEvenDiv (N : ℤ) (D : ℕ) : ℤ :=
  let f := Int.fdiv N D
  let r := N - f * D
  if 2 * r < D then f
  else if (D : ℤ) < 2 * r then f + 1
  else if f % 2 = 0 then f else f + 1

/-- Rendering of the rational `N / D` with one decimal place, as Python's
`f"{v:.1f}"` renders the (exactly represented) value `v = N / D`. -/
def oneDecimalOf (N : ℤ) (D : ℕ) : String :=
  let t := roundHalfEvenDiv (10 * N) D
  (if t < 0 then "-" else "") ++ natRepr (t.natAbs / 10) ++ "." ++ natRepr (t.natAbs % 10)

/-- Loop of `format_size` (downloader.py lines 19-23).  The running float
value is exactly `n / 1024 ^ k`; the test `abs(size_bytes) < 1024` is
`|n| / 1024 ^ k < 1024`, i.e. `n.natAbs < 1024 ^ (k + 1)`, and each
`size_bytes /= 1024` step increments `k`. -/
def formatSizeAux (n : ℤ) : ℕ → List String → String
  | k, [] => oneDecimalOf n (1024 ^ k) ++ " TB"
  | k, u :: us =>
    if n.natAbs < 1024 ^ (k + 1) then oneDecimalOf n (1024 ^ k) ++ " " ++ u
    else formatSizeAux n (k + 1) us

/-- Model of `format_size` (downloader.py lines 15-23): `None` gives the
fixed sentinel, otherwise the 1024-step unit loop over B, KB, MB, GB with
fall-through to TB. -/
def format_size : Option ℤ → String
  | none => "unknown size"
  | some n => formatSizeAux n 0 ["B", "KB", "MB", "GB"]

/-- The progress bar of `progress_callback` (downloader.py lines 29-31):
`filled = int(bar_length * current // total)` equals floor division
`30 * current / total` on naturals, and `"-" * (30 - filled)` is empty
when `filled` exceeds 30 (Python string repetition by a nonpositive count),
matching truncated subtraction on `ℕ`. -/
def progress_bar (current total : ℕ) : String :=
  let filled := 30 * current / total
  String.mk (List.replicate filled '=') ++ String.mk (List.replicate (30 - filled) '-')

/-- Model of `progress_callback` (downloader.py lines 26-32): the single
line written to the console (with `end=""`, so nothing beyond this string
is emitted).  `percent = current / total * 100` is the exact rational
`(100 * current) / total`. -/
def progress_callback (current total : ℕ) : String :=
  "\r  [" ++ progress_bar current total ++ "] " ++
    oneDecimalOf (100 * (current : ℤ)) total ++ "% (" ++
    format_size (some (current : ℤ)) ++ "/" ++ format_size (some (total : ℤ)) ++ ")"

/-- Index of the last occurrence of `c` in the list, or `-1` when absent:
CPython's `str.rfind` for a single-character needle, as used by
`posixpath.splitext`. -/
def pyRfind (c : Char) : List Char → ℤ
  | [] => -1
  | x :: xs =>
    let r := pyRfind c xs
    if 0 ≤ r then r + 1
    else if x = c then 0 else -1

/-- Model of `os.path.splitext` on POSIX (`sep = '/'`, no `altsep`,
`extsep = '.'`): split at the last dot, provided that dot lies after the
last path separator and some non-dot character precedes it in the base
name (so that leading dots, as in `".bashrc"`, never start an extension).
The CPython scan over `p[sepIndex+1 : dotIndex]` returns the split at the
first non-dot character, i.e. exactly when that slice contains one. -/
def splitext (p : String) : String × String :=
  let l := p.data
  let sepIndex := pyRfind '/' l
  let dotIndex := pyRfind '.' l
  if sepIndex < dotIndex then
    let start := (sepIndex + 1).toNat
    let stem := (l.drop start).take (dotIndex.toNat - start)
    if stem.any (fun c => c ≠ '.') then
      (String.mk (l.take dotIndex.toNat), String.mk (l.drop dotIndex.toNat))
    else (p, "")
  else (p, "")

/-- ASCII fragment of Python's Unicode-aware `str.isalnum`.  It agrees
with Python on every ASCII character; the theorems below only use the
facts that alphanumeric characters are neither the path separator nor
control characters, which hold for the full Unicode alphanumeric class as
well. -/
def pyIsAlnum (c : Char) : Bool :=
  decide ((48 ≤ c.toNat ∧ c.toNat ≤ 57) ∨ (65 ≤ c.toNat ∧ c.toNat ≤ 90) ∨
    (97 ≤ c.toNat ∧ c.toNat ≤ 122))

/-- One character of the sanitization step (downloader.py line 49):
`c if c.isalnum() or c in (" ", "-", "_") else "_"`. -/
def sanitizeChar (c : Char) : Char :=
  if pyIsAlnum c ∨ c = ' ' ∨ c = '-' ∨ c = '_' then c else '_'

/-- Whitespace stripped by Python's `str.strip()` (ASCII fragment; after
sanitization the only whitespace character that can remain is `' '`). -/
def pyIsSpace (c : Char) : Bool :=
  decide (c = ' ' ∨ c = '\t' ∨ c = '\n' ∨ c = '\x0b' ∨ c = '\x0c' ∨ c = '\r')

/-- Model of `str.strip()`: drop leading and trailing whitespace. -/
def pyStrip (s : String) : String :=
  String.mk (((s.data.dropWhile pyIsSpace).reverse.dropWhile pyIsSpace).reverse)

/-- Calendar date of a message (`message.date`); only the calendar fields
are used by the script (`strftime("%Y-%m-%d")`). -/
structure PyDate where
  year : ℕ
  month : ℕ
  day : ℕ
deriving DecidableEq

/-- One entry of `message.document.attributes`: either a
`DocumentAttributeFilename` carrying the original file name, or any other
attribute kind (ignored by the script). -/
inductive DocumentAttribute where
  | filenameAttr (file_name : String)
  | otherAttr
deriving DecidableEq

/-- Model of `message.document`: the attribute list, the optional MIME
type (`None` and `""` are both falsy in Python, handled at use sites) and
the optional size in bytes. -/
structure Document where
  attributes : List DocumentAttribute
  mime_type : Option String
  size : Option ℤ
deriving DecidableEq

/-- Model of a Telegram message as consumed by the script: date, optional
document, optional caption text (`message.message`). -/
structure Message where
  date : PyDate
  document : Option Document
  message : Option String
deriving DecidableEq

/-- The `for attr in message.document.attributes` loop (downloader.py
lines 41-44): the `file_name` of the first `DocumentAttributeFilename`,
if any. -/
def firstFilenameAttr : List DocumentAttribute → Option String
  | [] => none
  | .filenameAttr fn :: _ => some fn
  | .otherAttr :: rest => firstFilenameAttr rest

/-- `message.date.strftime("%Y-%m-%d")`: zero-padded calendar date. -/
def strftimeYmd (d : PyDate) : String :=
  zeroPad 4 d.year ++ "-" ++ zeroPad 2 d.month ++ "-" ++ zeroPad 2 d.day

/-- The `mime_to_ext` table (downloader.py lines 54-60). -/
def mime_to_ext : List (String × String) :=
  [("video/mp4", ".mp4"), ("video/quicktime", ".mov"), ("video/x-matroska", ".mkv"),
    ("video/webm", ".webm"), ("video/x-msvideo", ".avi")]

/-- The `else` branch of `get_video_filename` (downloader.py lines 51-61):
extension from the MIME table, defaulting to `.mp4` when the document or
its MIME type is absent, empty (falsy) or unrecognized. -/
def noNameExt (m : Message) : String :=
  match m.document with
  | none => ".mp4"
  | some doc =>
    match doc.mime_type with
    | none => ".mp4"
    | some mt =>
      if mt = "" then ".mp4"
      else
        match mime_to_ext.lookup mt with
        | some e => e
        | none => ".mp4"

/-- The original file name carried by the message, if any (downloader.py
lines 39-44). -/
def originalName (m : Message) : Option String :=
  match m.document with
  | some doc => firstFilenameAttr doc.attributes
  | none => none

/-- Model of `get_video_filename` (downloader.py lines 35-62).  An empty
`file_name` attribute is falsy in Python (`if original_name:`), hence
falls through to the no-name branch.  Only the split-off base name is
sanitized; the extension is appended verbatim. -/
def get_video_filename (m : Message) (index : ℕ) : String :=
  let date_str := strftimeYmd m.date
  match originalName m with
  | some oname =>
    if oname = "" then date_str ++ "_" ++ zeroPad 4 index ++ "_video" ++ noNameExt m
    else
      let ne := splitext oname
      let name := pyStrip (String.mk (ne.1.data.map sanitizeChar))
      date_str ++ "_" ++ zeroPad 4 index ++ "_" ++ name ++ ne.2
  | none => date_str ++ "_" ++ zeroPad 4 index ++ "_video" ++ noNameExt m

/-- Model of `os.path.join` on POSIX for two components (the only form the
script uses, `os.path.join(DOWNLOAD_DIR, filename)`). -/
def osPathJoin (a b : String) : String :=
  if b.data.head? = some '/' then b
  else if a = "" ∨ a.data.getLast? = some '/' then a ++ b
  else a ++ "/" ++ b

/-- Filesystem state visible to the script: the set of existing
directories and the set of existing (regular) file paths, each as a list
of absolute-or-relative path strings.  `os.path.exists(filepath)` is
membership of `filepath` in `files` (the script only probes file paths it
itself constructs). -/
structure FS where
  dirs : List String
  files : List String
deriving DecidableEq

/-- Model of `os.makedirs(dir, exist_ok=True)`: ensure the directory
exists; the file set is untouched. -/
def makedirs (dir : String) (fs : FS) : FS :=
  if dir ∈ fs.dirs then fs else { fs with dirs := dir :: fs.dirs }

/-- Outcome of one `client.download_media` call.  On success the
destination file is created.  On failure the call raises; `hasPartial`
says whether a partial file was left at the destination path, and
`removeRaises` says whether the subsequent `os.remove(filepath)` cleanup
call would itself raise (e.g. a permission error); both model the ambient
nondeterminism of network and filesystem. -/
inductive DlOutcome where
  | success
  | failure (hasPartial : Bool) (removeRaises : Bool)
deriving DecidableEq

/-- Environment of one run of `download_videos`: the four configuration
values from `config.py`, and the behaviour of the external collaborators,
namely whether `client.get_entity(CHAT_ID)` succeeds, the messages yielded
by `client.iter_messages(chat, filter=InputMessagesFilterVideo)` in API
order (typically newest first), and the outcome of `download_media` for
the item processed at each 1-based loop index. -/
structure Env where
  API_ID : ℤ
  API_HASH : String
  CHAT_ID : ℤ
  DOWNLOAD_DIR : String
  resolveOk : Bool
  messages : List Message
  dl : ℕ → DlOutcome

/-- Result of a run of `download_videos`.  Constructors correspond to the
code paths of downloader.py: `configError` = the early return at lines
81-84 (config error text printed, nothing else done); `chatError` = the
early return at lines 88-93 (`get_entity` failed); `noVideos` = the early
return at lines 108-110 (the "no videos" line printed, the summary block
of lines 151-157 is *not* printed); `done` = the loop finished and the
summary block printed exactly the counters carried here; `crashed` = an
exception escaped `download_videos` (only possible from the unguarded
`os.remove` at line 148), aborting the loop with the counters and
filesystem in the carried state and no summary printed. -/
inductive RunResult where
  | configError (fs : FS)
  | chatError (fs : FS)
  | noVideos (fs : FS)
  | done (downloaded skipped errors : ℕ) (fs : FS)
  | crashed (downloaded skipped errors : ℕ) (fs : FS)
deriving DecidableEq

/-- The per-item loop of `download_videos` (downloader.py lines 118-148),
processing the remaining messages `ms` with `i` the 1-based index of the
head, accumulating the three counters and the filesystem state.  Console
output (the skip line, the item-start line with optional size and
truncated caption, progress rendering) does not affect control flow or
state and is not tracked here.  In the failure branch the destination path
exists iff the download left a partial file (the path did not exist before
the attempt), so `os.remove` runs exactly when `hasPartial`; if that
`os.remove` raises, the exception propagates out of the whole function
(it is not inside any `try`), modelled by `crashed`. -/
def runLoop (dir : String) (dl : ℕ → DlOutcome) :
    ℕ → List Message → ℕ → ℕ → ℕ → FS → RunResult
  | _, [], d, s, e, fs => .done d s e fs
  | i, m :: rest, d, s, e, fs =>
    let filepath := osPathJoin dir (get_video_filename m i)
    if filepath ∈ fs.files then
      runLoop dir dl (i + 1) rest d (s + 1) e fs
    else
      match dl i with
      | .success =>
        runLoop dir dl (i + 1) rest (d + 1) s e { fs with files := filepath :: fs.files }
      | .failure hasPartial removeRaises =>
        if hasPartial then
          if removeRaises then .crashed d s (e + 1) { fs with files := filepath :: fs.files }
          else runLoop dir dl (i + 1) rest d s (e + 1) fs
        else runLoop dir dl (i + 1) rest d s (e + 1) fs

/-- Model of `download_videos` (downloader.py lines 78-157): validate the
configuration (empty `API_HASH` is falsy), ensure the download directory,
resolve the chat, collect the video messages, reverse them to process
oldest first, and run the per-item loop with 1-based indices. -/
def download_videos (env : Env) (fs0 : FS) : RunResult :=
  if env.API_ID = 0 ∨ env.API_HASH = "" ∨ env.CHAT_ID = 0 then .configError fs0
  else
    let fs1 := makedirs env.DOWNLOAD_DIR fs0
    if env.resolveOk then
      let video_messages := env.messages.reverse
      if video_messages.length = 0 then .noVideos fs1
      else runLoop env.DOWNLOAD_DIR env.dl 1 video_messages 0 0 0 fs1
    else .chatError fs1

/-- Destination paths of the items of `ms` processed from 1-based index
`i0` on: the path of the `j`-th element (0-based) is the one built from
that message and index `i0 + j`. -/
def itemPaths (dir : String) : ℕ → List Message → List String
  | _, [] => []
  | i0, m :: rest => osPathJoin dir (get_video_filename m i0) :: itemPaths dir (i0 + 1) rest

/-- Control characters in the sense of the specification's safety
guarantee: the Unicode `Cc` category, i.e. U+0000-U+001F and
U+007F-U+009F. -/
def isCtrl (c : Char) : Bool :=
  decide (c.toNat < 32 ∨ (127 ≤ c.toNat ∧ c.toNat ≤ 159))

/-- The extension that `get_video_filename` appends to the sanitized (or
generated) base name, extracted from its branches: the verbatim
`splitext` extension when a nonempty original file name is present,
otherwise the MIME-table extension. -/
def chosen_ext (m : Message) : String :=
  match originalName m with
  | some oname => if oname = "" then noNameExt m else (splitext oname).2
  | none => noNameExt m

/-- Concrete message of the specification's Filename Builder example:
dated 2024-03-05, carrying an original file name `My Clip!!.mov`. -/
def mClip : Message :=
  { date := { year := 2024, month := 3, day := 5 },
    document := some { attributes := [DocumentAttribute.filenameAttr "My Clip!!.mov"],
                       mime_type := some "video/quicktime", size := some 1000 },
    message := none }

/-- Concrete message whose original file name carries a newline inside
its extension part. -/
def mBad : Message :=
  { date := { year := 2024, month := 3, day := 5 },
    document := some { attributes := [DocumentAttribute.filenameAttr "clip.m\nov"],
                       mime_type := none, size := none },
    message := none }

/-- Concrete message without a document (no file name, no MIME type). -/
def mA : Message :=
  { date := { year := 2023, month := 1, day := 2 }, document := none, message := none }

/-- Second concrete message without a document, dated later than `mA`. -/
def mB : Message :=
  { date := { year := 2024, month := 6, day := 7 }, document := none, message := none }

/-- Concrete run environment: valid configuration, chat resolution
succeeds, two video messages yielded newest-first (`mB` then `mA`), every
download succeeding. -/
def envT : Env :=
  { API_ID := 1, API_HASH := "h", CHAT_ID := 42, DOWNLOAD_DIR := "downloads",
    resolveOk := true, messages := [mB, mA], dl := fun _ => .success }

/-- Concrete initial filesystem already holding the deterministic file of
the first (oldest) message of `envT`. -/
def fsT : FS := { dirs := [], files := ["downloads/2023-01-02_0001_video.mp4"] }

/-- Concrete empty filesystem. -/
def fsEmpty : FS := { dirs := [], files := [] }

/-- Like `envT` but the first processed item's download fails leaving a
partial file whose removal also fails. -/
def envCrash : Env :=
  { envT with dl := fun i => if i = 1 then .failure true true else .success }

/-- Like `envT` but with the placeholder `API_ID = 0`. -/
def envZero : Env := { envT with API_ID := 0 }

/-- Like `envT` but the chat has no video messages. -/
def envNoVid : Env := { envT with messages := [] }

/-- Download behaviour that always fails leaving a partial file whose
removal succeeds. -/
def dlFail : ℕ → DlOutcome := fun _ => .failure true false

/-- The concrete download directory of the test fixtures. -/
def dirD : String := "downloads"

lemma data_mk (l : List Char) : (String.mk l).data = l := rfl

lemma formatSizeAux_unit (n : ℤ) (k : ℕ) (u : String) (us : List String)
    (h : n.natAbs < 1024 ^ (k + 1)) :
    formatSizeAux n k (u :: us) = oneDecimalOf n (1024 ^ k) ++ " " ++ u := by
  simp only [formatSizeAux, if_pos h]

lemma formatSizeAux_step (n : ℤ) (k : ℕ) (u : String) (us : List String)
    (h : ¬ n.natAbs < 1024 ^ (k + 1)) :
    formatSizeAux n k (u :: us) = formatSizeAux n (k + 1) us := by
  simp only [formatSizeAux, if_neg h]

/-- Claim C6: the Size Formatter returns the sentinel "unknown size" for
an absent input; otherwise it repeatedly divides by 1024, choosing the
first unit of B, KB, MB, GB under which the absolute value is below 1024
and falling through to TB, and renders the scaled value (exactly
`n / 1024 ^ k`) to one decimal place followed by a space and the unit; in
particular `format_size none = "unknown size"`,
`format_size (some 500) = "500.0 B"` and
`format_size (some 1536) = "1.5 KB"`. -/
theorem claim_C6_format_size :
    format_size none = "unknown size" ∧
    format_size (some 500) = "500.0 B" ∧
    format_size (some 1536) = "1.5 KB" ∧
    (∀ n : ℤ, n.natAbs < 1024 →
      format_size (some n) = oneDecimalOf n (1024 ^ 0) ++ " " ++ "B") ∧
    (∀ n : ℤ, 1024 ≤ n.natAbs → n.natAbs < 1024 ^ 2 →
      format_size (some n) = oneDecimalOf n (1024 ^ 1) ++ " " ++ "KB") ∧
    (∀ n : ℤ, 1024 ^ 2 ≤ n.natAbs → n.natAbs < 1024 ^ 3 →
      format_size (some n) = oneDecimalOf n (1024 ^ 2) ++ " " ++ "MB") ∧
    (∀ n : ℤ, 1024 ^ 3 ≤ n.natAbs → n.natAbs < 1024 ^ 4 →
      format_size (some n) = oneDecimalOf n (1024 ^ 3) ++ " " ++ "GB") ∧
    (∀ n : ℤ, 1024 ^ 4 ≤ n.natAbs →
      format_size (some n) = oneDecimalOf n (1024 ^ 4) ++ " TB") := by
  refine ⟨by decide, by decide, by decide, ?_, ?_, ?_, ?_, ?_⟩
  · intro n h
    show formatSizeAux n 0 ["B", "KB", "MB", "GB"] = _
    rw [formatSizeAux_unit n 0 _ _ (by norm_num at h ⊢; omega)]
  · intro n h1 h2
    show formatSizeAux n 0 ["B", "KB", "MB", "GB"] = _
    rw [formatSizeAux_step n 0 _ _ (by norm_num at h1 ⊢; omega),
      formatSizeAux_unit n 1 _ _ (by norm_num at h2 ⊢; omega)]
  · intro n h1 h2
    show formatSizeAux n 0 ["B", "KB", "MB", "GB"] = _
    rw [formatSizeAux_step n 0 _ _ (by norm_num at h1 ⊢; omega),
      formatSizeAux_step n 1 _ _ (by norm_num at h1 ⊢; omega),
      formatSizeAux_unit n 2 _ _ (by norm_num at h2 ⊢; omega)]
  · intro n h1 h2
    show formatSizeAux n 0 ["B", "KB", "MB", "GB"] = _
    rw [formatSizeAux_step n 0 _ _ (by norm_num at h1 ⊢; omega),
      formatSizeAux_step n 1 _ _ (by norm_num at h1 ⊢; omega),
      formatSizeAux_step n 2 _ _ (by norm_num at h1 ⊢; omega),
      formatSizeAux_unit n 3 _ _ (by norm_num at h2 ⊢; omega)]
  · intro n h1
    show formatSizeAux n 0 ["B", "KB", "MB", "GB"] = _
    rw [formatSizeAux_step n 0 _ _ (by norm_num at h1 ⊢; omega),
      formatSizeAux_step n 1 _ _ (by norm_num at h1 ⊢; omega),
      formatSizeAux_step n 2 _ _ (by norm_num at h1 ⊢; omega),
      formatSizeAux_step n 3 _ _ (by norm_num at h1 ⊢; omega)]
    rfl

/-- Witness for C6: the MB conjunct applied to two mebibytes. -/
theorem claim_C6_format_size_witness :
    format_size (some 2097152) = oneDecimalOf 2097152 (1024 ^ 2) ++ " " ++ "MB" :=
  claim_C6_format_size.2.2.2.2.2.1 2097152 (by decide) (by decide)

/-- Counterexample to C2 as stated: on the specification's own example
the builder does not return the string with an underscore between `My`
and `Clip` — the sanitization keeps spaces. -/
theorem claim_C2_counterexample :
    get_video_filename mClip 7 ≠ "2024-03-05_0007_My_Clip__.mov" := by decide

/-- Claim C2 (amended): for the message dated 2024-03-05 with original
filename `My Clip!!.mov` and index 7 the Filename Builder returns
`2024-03-05_0007_My Clip__.mov` — the space of the base name is kept,
since the sanitization replaces only characters that are not
alphanumeric, space, hyphen or underscore. -/
theorem claim_C2_filename_example :
    get_video_filename mClip 7 = "2024-03-05_0007_My Clip__.mov" := by decide

lemma digitsFuel_lt_ten : ∀ fuel n d, d ∈ digitsFuel fuel n → d < 10 := by
  intro fuel
  induction fuel with
  | zero => intro n d h; simp [digitsFuel] at h
  | succ f ih =>
    intro n d h
    simp only [digitsFuel] at h
    by_cases hn : n = 0
    · rw [if_pos hn] at h; simp at h
    · rw [if_neg hn] at h
      rcases List.mem_cons.mp h with h1 | h2
      · subst h1; exact Nat.mod_lt _ (by norm_num)
      · exact ih _ _ h2

lemma digitChar_range (d : ℕ) (hd : d < 10) :
    48 ≤ (Nat.digitChar d).toNat ∧ (Nat.digitChar d).toNat ≤ 57 := by
  interval_cases d <;> decide

lemma natRepr_chars (n : ℕ) (ch : Char) (h : ch ∈ (natRepr n).data) :
    48 ≤ ch.toNat ∧ ch.toNat ≤ 57 := by
  unfold natRepr at h
  by_cases hn : n = 0
  · rw [if_pos hn] at h
    have e : ("0" : String).data = ['0'] := rfl
    rw [e, List.mem_singleton] at h
    subst h; decide
  · rw [if_neg hn, data_mk, List.mem_reverse] at h
    rcases List.mem_map.mp h with ⟨d, hd, rfl⟩
    exact digitChar_range d (digitsFuel_lt_ten _ _ _ hd)

lemma zeroPad_chars (w n : ℕ) (ch : Char) (h : ch ∈ (zeroPad w n).data) :
    48 ≤ ch.toNat ∧ ch.toNat ≤ 57 := by
  unfold zeroPad at h
  rw [String.data_append, data_mk] at h
  rcases List.mem_append.mp h with h1 | h2
  · rw [List.eq_of_mem_replicate h1]; decide
  · exact natRepr_chars n ch h2

lemma strftimeYmd_chars (d : PyDate) (ch : Char) (h : ch ∈ (strftimeYmd d).data) :
    (48 ≤ ch.toNat ∧ ch.toNat ≤ 57) ∨ ch = '-' := by
  unfold strftimeYmd at h
  simp only [String.data_append] at h
  rcases List.mem_append.mp h with h1 | h2
  · rcases List.mem_append.mp h1 with h3 | h4
    · rcases List.mem_append.mp h3 with h5 | h6
      · rcases List.mem_append.mp h5 with h7 | h8
        · exact Or.inl (zeroPad_chars _ _ _ h7)
        · exact Or.inr (List.mem_singleton.mp h8)
      · exact Or.inl (zeroPad_chars _ _ _ h6)
    · exact Or.inr (List.mem_singleton.mp h4)
  · exact Or.inl (zeroPad_chars _ _ _ h2)

lemma sanitizeChar_good (c : Char) :
    (sanitizeChar c).toNat ≠ 47 ∧ isCtrl (sanitizeChar c) = false := by
  unfold sanitizeChar
  split_ifs with h
  · rcases h with h | h | h | h
    · unfold pyIsAlnum at h
      rw [decide_eq_true_eq] at h
      unfold isCtrl
      rw [decide_eq_false_iff_not]
      omega
    · subst h; decide
    · subst h; decide
    · subst h; decide
  · decide

lemma pyRfind_ge_neg_one (c : Char) : ∀ l : List Char, -1 ≤ pyRfind c l := by
  intro l
  induction l with
  | nil => simp [pyRfind]
  | cons x xs ih =>
    simp only [pyRfind]
    split_ifs <;> omega

lemma pyRfind_neg_not_mem (c : Char) : ∀ l : List Char, pyRfind c l < 0 → c ∉ l := by
  intro l
  induction l with
  | nil => intro _ h; simp at h
  | cons x xs ih =>
    intro h hmem
    simp only [pyRfind] at h
    by_cases h0 : 0 ≤ pyRfind c xs
    · rw [if_pos h0] at h; omega
    · rw [if_neg h0] at h
      by_cases hx : x = c
      · rw [if_pos hx] at h; omega
      · rw [if_neg hx] at h
        rcases List.mem_cons.mp hmem with h1 | h2
        · exact hx h1.symm
        · exact ih (by omega) h2

lemma pyRfind_drop (c : Char) :
    ∀ (l : List Char) (ch : Char), ch ∈ l.drop (pyRfind c l + 1).toNat → ch ≠ c := by
  intro l
  induction l with
  | nil => intro ch h; simp at h
  | cons x xs ih =>
    intro ch h
    simp only [pyRfind] at h
    by_cases h0 : 0 ≤ pyRfind c xs
    · rw [if_pos h0] at h
      have e : (pyRfind c xs + 1 + 1).toNat = (pyRfind c xs + 1).toNat + 1 := by omega
      rw [e, List.drop_succ_cons] at h
      exact ih ch h
    · rw [if_neg h0] at h
      by_cases hx : x = c
      · rw [if_pos hx] at h
        have e : ((0 : ℤ) + 1).toNat = 0 + 1 := by decide
        rw [e, List.drop_succ_cons, List.drop_zero] at h
        intro hc
        subst hc
        exact pyRfind_neg_not_mem ch xs (by omega) h
      · rw [if_neg hx] at h
        have e : ((-1 : ℤ) + 1).toNat = 0 := by decide
        rw [e, List.drop_zero] at h
        rcases List.mem_cons.mp h with h1 | h2
        · subst h1; intro hc; exact hx hc
        · intro hc
          subst hc
          exact pyRfind_neg_not_mem ch xs (by omega) h2

lemma splitext_snd_no_sep (p : String) (ch : Char) (h : ch ∈ ((splitext p).2).data) :
    ch ≠ '/' := by
  unfold splitext at h
  by_cases h1 : pyRfind '/' p.data < pyRfind '.' p.data
  · rw [if_pos h1] at h
    simp only at h
    split at h
    · simp only [data_mk] at h
      have hs1 : ch ∈ p.data.drop (pyRfind '/' p.data + 1).toNat := by
        have hd : (pyRfind '.' p.data).toNat =
            (pyRfind '/' p.data + 1).toNat +
              ((pyRfind '.' p.data).toNat - (pyRfind '/' p.data + 1).toNat) := by
          have := pyRfind_ge_neg_one '/' p.data
          omega
        rw [hd, ← List.drop_drop] at h
        exact List.drop_subset _ _ h
      exact pyRfind_drop '/' p.data ch hs1
    · simp at h
  · rw [if_neg h1] at h
    simp at h

lemma pyStrip_subset (s : String) (ch : Char) (h : ch ∈ (pyStrip s).data) : ch ∈ s.data := by
  unfold pyStrip at h
  rw [data_mk, List.mem_reverse] at h
  have h2 := (List.dropWhile_sublist _).subset h
  rw [List.mem_reverse] at h2
  exact (List.dropWhile_sublist _).subset h2

lemma lookup_mime (mt e : String) (h : mime_to_ext.lookup mt = some e) :
    e = ".mp4" ∨ e = ".mov" ∨ e = ".mkv" ∨ e = ".webm" ∨ e = ".avi" := by
  simp only [mime_to_ext, List.lookup] at h
  repeat' split at h
  all_goals simp_all

lemma noNameExt_cases (m : Message) :
    noNameExt m = ".mp4" ∨ noNameExt m = ".mov" ∨ noNameExt m = ".mkv" ∨
      noNameExt m = ".webm" ∨ noNameExt m = ".avi" := by
  rcases m with ⟨dt, mdoc, cap⟩
  rcases mdoc with _ | doc
  · exact Or.inl rfl
  · rcases doc with ⟨attrs, mty, sz⟩
    rcases mty with _ | mt
    · exact Or.inl rfl
    · unfold noNameExt
      dsimp only
      split_ifs with hmt
      · exact Or.inl rfl
      · rcases h5 : List.lookup mt mime_to_ext with _ | e
        · exact Or.inl rfl
        · exact lookup_mime mt e h5

lemma digit_good (ch : Char) (h1 : 48 ≤ ch.toNat) (h2 : ch.toNat ≤ 57) :
    ch.toNat ≠ 47 ∧ isCtrl ch = false := by
  refine ⟨by omega, ?_⟩
  unfold isCtrl
  rw [decide_eq_false_iff_not]
  omega

lemma strftimeYmd_good (d : PyDate) (ch : Char) (h : ch ∈ (strftimeYmd d).data) :
    ch.toNat ≠ 47 ∧ isCtrl ch = false := by
  rcases strftimeYmd_chars d ch h with ⟨h1, h2⟩ | h1
  · exact digit_good ch h1 h2
  · subst h1; decide

lemma chosen_ext_no_sep (m : Message) (ch : Char) (h : ch ∈ (chosen_ext m).data) :
    ch ≠ '/' := by
  unfold chosen_ext at h
  rcases ho : originalName m with _ | oname
  · rw [ho] at h
    have h2 : ch ∈ (noNameExt m).data := h
    rcases noNameExt_cases m with h1 | h1 | h1 | h1 | h1 <;>
      rw [h1] at h2 <;> (intro hc; subst hc; revert h2; decide)
  · rw [ho] at h
    have h2 : ch ∈ (if oname = "" then noNameExt m else (splitext oname).2).data := h
    by_cases he : oname = ""
    · rw [if_pos he] at h2
      rcases noNameExt_cases m with h1 | h1 | h1 | h1 | h1 <;>
        rw [h1] at h2 <;> (intro hc; subst hc; revert h2; decide)
    · rw [if_neg he] at h2
      exact splitext_snd_no_sep oname ch h2

lemma sanitized_name_good (l : List Char) (ch : Char)
    (h : ch ∈ (pyStrip (String.mk (l.map sanitizeChar))).data) :
    ch.toNat ≠ 47 ∧ isCtrl ch = false := by
  have h2 := pyStrip_subset _ ch h
  rw [data_mk] at h2
  rcases List.mem_map.mp h2 with ⟨c, _, rfl⟩
  exact sanitizeChar_good c

lemma scaffold_good (d : PyDate) (idx : ℕ) (tail : String) (ch : Char)
    (htail : ∀ c ∈ tail.data, c.toNat ≠ 47 ∧ isCtrl c = false)
    (h : ch ∈ (strftimeYmd d ++ "_" ++ zeroPad 4 idx ++ tail).data) :
    ch.toNat ≠ 47 ∧ isCtrl ch = false := by
  simp only [String.data_append] at h
  rcases List.mem_append.mp h with h1 | h1
  · rcases List.mem_append.mp h1 with h2 | h2
    · rcases List.mem_append.mp h2 with h3 | h3
      · exact strftimeYmd_good d ch h3
      · rw [List.mem_singleton] at h3
        subst h3; decide
    · rcases zeroPad_chars 4 idx ch h2 with ⟨h3, h4⟩
      exact digit_good ch h3 h4
  · exact htail ch h1

lemma get_video_filename_chars (m : Message) (idx : ℕ) (ch : Char)
    (h : ch ∈ (get_video_filename m idx).data) :
    ch ∈ (chosen_ext m).data ∨ (ch.toNat ≠ 47 ∧ isCtrl ch = false) := by
  unfold get_video_filename at h
  rcases ho : originalName m with _ | oname
  · rw [ho] at h
    have h2 : ch ∈ ((strftimeYmd m.date ++ "_" ++ zeroPad 4 idx ++ "_video") ++ noNameExt m).data := h
    rw [String.data_append] at h2
    rcases List.mem_append.mp h2 with h3 | h3
    · exact Or.inr (scaffold_good m.date idx ("_video") ch (by decide) h3)
    · left
      unfold chosen_ext
      rw [ho]
      exact h3
  · rw [ho] at h
    by_cases he : oname = ""
    · have h2 : ch ∈ ((strftimeYmd m.date ++ "_" ++ zeroPad 4 idx ++ "_video") ++ noNameExt m).data := by
        have h3 : ch ∈ (if oname = "" then
            strftimeYmd m.date ++ "_" ++ zeroPad 4 idx ++ "_video" ++ noNameExt m
          else
            strftimeYmd m.date ++ "_" ++ zeroPad 4 idx ++ "_" ++
              pyStrip (String.mk ((splitext oname).1.data.map sanitizeChar)) ++
              (splitext oname).2).data := h
        rw [if_pos he] at h3
        exact h3
      rw [String.data_append] at h2
      rcases List.mem_append.mp h2 with h3 | h3
      · exact Or.inr (scaffold_good m.date idx ("_video") ch (by decide) h3)
      · left
        unfold chosen_ext
        rw [ho]
        show ch ∈ (if oname = "" then noNameExt m else (splitext oname).2).data
        rw [if_pos he]
        exact h3
    · have h2 : ch ∈ ((strftimeYmd m.date ++ "_" ++ zeroPad 4 idx ++ "_" ++
          pyStrip (String.mk ((splitext oname).1.data.map sanitizeChar))) ++
          (splitext oname).2).data := by
        have h3 : ch ∈ (if oname = "" then
            strftimeYmd m.date ++ "_" ++ zeroPad 4 idx ++ "_video" ++ noNameExt m
          else
            strftimeYmd m.date ++ "_" ++ zeroPad 4 idx ++ "_" ++
              pyStrip (String.mk ((splitext oname).1.data.map sanitizeChar)) ++
              (splitext oname).2).data := h
        rw [if_neg he] at h3
        exact h3
      rw [String.data_append] at h2
      rcases List.mem_append.mp h2 with h3 | h3
      · rw [String.data_append] at h3
        rcases List.mem_append.mp h3 with h4 | h4
        · exact Or.inr (scaffold_good m.date idx ("_") ch (by decide) h4)
        · exact Or.inr (sanitized_name_good _ ch h4)
      · left
        unfold chosen_ext
        rw [ho]
        show ch ∈ (if oname = "" then noNameExt m else (splitext oname).2).data
        rw [if_neg he]
        exact h3

/-- Counterexample to C4 as stated: a message whose original filename is
`clip.m<LF>ov` produces an output containing the control character `'\n'`,
because the extension returned by `splitext` is appended without
sanitization. -/
theorem claim_C4_counterexample :
    '\n' ∈ (get_video_filename mBad 1).data ∧ isCtrl '\n' = true := by decide

/-- Claim C4 (amended): for every message and index the Filename Builder
output contains no path-separator character `'/'`; and it contains no
control character provided the appended extension contains none — the
extension is taken verbatim from the original filename by `splitext`
(everything else in the output is sanitized or generated), so control
characters inside that extension, and only those, survive into the
output. -/
theorem claim_C4_filename_safe (m : Message) (idx : ℕ) :
    '/' ∉ (get_video_filename m idx).data ∧
    ((∀ ch ∈ (chosen_ext m).data, isCtrl ch = false) →
      ∀ ch ∈ (get_video_filename m idx).data, isCtrl ch = false) := by
  constructor
  · intro h
    rcases get_video_filename_chars m idx '/' h with h1 | h1
    · exact chosen_ext_no_sep m '/' h1 rfl
    · exact h1.1 rfl
  · intro hext ch h
    rcases get_video_filename_chars m idx ch h with h1 | h1
    · exact hext ch h1
    · exact h1.2

/-- Witness for C4: the amended theorem applied to the concrete message
`mClip` at index 7, whose extension `.mov` is control-free. -/
theorem claim_C4_filename_safe_witness :
    '/' ∉ (get_video_filename mClip 7).data ∧
    (∀ ch ∈ (get_video_filename mClip 7).data, isCtrl ch = false) :=
  ⟨(claim_C4_filename_safe mClip 7).1, (claim_C4_filename_safe mClip 7).2 (by decide)⟩

lemma natRepr_no_nl (n : ℕ) : '\n' ∉ (natRepr n).data := by
  intro h
  have h2 := natRepr_chars n _ h
  have e : ('\n').toNat = 10 := rfl
  rw [e] at h2
  omega

lemma oneDecimalOf_no_nl (N : ℤ) (D : ℕ) : '\n' ∉ (oneDecimalOf N D).data := by
  intro h
  have h2 : '\n' ∈ ((if roundHalfEvenDiv (10 * N) D < 0 then "-" else "") ++
      natRepr ((roundHalfEvenDiv (10 * N) D).natAbs / 10) ++ "." ++
      natRepr ((roundHalfEvenDiv (10 * N) D).natAbs % 10)).data := h
  simp only [String.data_append] at h2
  rcases List.mem_append.mp h2 with h3 | h3
  · rcases List.mem_append.mp h3 with h4 | h4
    · rcases List.mem_append.mp h4 with h5 | h5
      · split_ifs at h5 <;> revert h5 <;> decide
      · exact natRepr_no_nl _ h5
    · revert h4; decide
  · exact natRepr_no_nl _ h3

lemma formatSizeAux_no_nl (n : ℤ) :
    ∀ (us : List String) (k : ℕ), (∀ u ∈ us, '\n' ∉ u.data) →
      '\n' ∉ (formatSizeAux n k us).data := by
  intro us
  induction us with
  | nil =>
    intro k _ h
    simp only [formatSizeAux, String.data_append] at h
    rcases List.mem_append.mp h with h1 | h1
    · exact oneDecimalOf_no_nl _ _ h1
    · revert h1; decide
  | cons u us ih =>
    intro k hu h
    simp only [formatSizeAux] at h
    split_ifs at h
    · simp only [String.data_append] at h
      rcases List.mem_append.mp h with h1 | h1
      · rcases List.mem_append.mp h1 with h2 | h2
        · exact oneDecimalOf_no_nl _ _ h2
        · revert h2; decide
      · exact hu u (List.mem_cons_self u us) h1
    · exact ih k.succ (fun v hv => hu v (List.mem_cons_of_mem u hv)) h

lemma format_size_no_nl (o : Option ℤ) : '\n' ∉ (format_size o).data := by
  rcases o with _ | n
  · decide
  · exact formatSizeAux_no_nl n ["B", "KB", "MB", "GB"] 0 (by decide)

lemma progress_bar_eq (c t : ℕ) :
    (progress_bar c t).data =
      List.replicate (30 * c / t) '=' ++ List.replicate (30 - 30 * c / t) '-' := rfl

lemma progress_bar_no_nl (c t : ℕ) : '\n' ∉ (progress_bar c t).data := by
  intro h
  rw [progress_bar_eq] at h
  rcases List.mem_append.mp h with h1 | h1 <;>
    exact absurd (List.eq_of_mem_replicate h1) (by decide)

/-- Counterexample to C7 as stated: at `current = 2`, `total = 1` (which
satisfies the claim's stated precondition `current ≥ 0`, `total > 0`) the
bar has 60 characters, not 30. -/
theorem claim_C7_counterexample : (progress_bar 2 1).length ≠ 30 := by decide

/-- Claim C7 (amended): for `0 ≤ current ≤ total` and `total > 0`, the
Progress Reporter renders a 30-character bar whose filled portion is
exactly `⌊30 * current / total⌋` characters of `'='` (the remainder
`'-'`), followed by the percentage `100 * current / total` rendered to one
decimal place and by `current`/`total` rendered via the Size Formatter,
and the emitted line contains no newline (the original claim's universal
range `current ≥ 0` is false: for `current > total` the filled portion
exceeds 30 characters). -/
theorem claim_C7_progress (c t : ℕ) (h1 : c ≤ t) (h2 : 0 < t) :
    (progress_bar c t).length = 30 ∧
    (progress_bar c t).data =
      List.replicate (30 * c / t) '=' ++ List.replicate (30 - 30 * c / t) '-' ∧
    progress_callback c t =
      "\r  [" ++ progress_bar c t ++ "] " ++ oneDecimalOf (100 * (c : ℤ)) t ++ "% (" ++
        format_size (some (c : ℤ)) ++ "/" ++ format_size (some (t : ℤ)) ++ ")" ∧
    '\n' ∉ (progress_callback c t).data := by
  have hle : 30 * c / t ≤ 30 := by
    have hm : 30 * c ≤ 30 * t := Nat.mul_le_mul_left 30 h1
    have hd : 30 * c / t ≤ 30 * t / t := Nat.div_le_div_right hm
    rwa [Nat.mul_div_cancel 30 h2] at hd
  refine ⟨?_, progress_bar_eq c t, rfl, ?_⟩
  · have e : (progress_bar c t).length = (progress_bar c t).data.length := rfl
    rw [e, progress_bar_eq]
    simp only [List.length_append, List.length_replicate]
    omega
  · intro h
    have h2 : '\n' ∈ (("\r  [" ++ progress_bar c t ++ "] " ++
        oneDecimalOf (100 * (c : ℤ)) t ++ "% (" ++ format_size (some (c : ℤ)) ++ "/" ++
        format_size (some (t : ℤ)) ++ ")").data) := h
    simp only [String.data_append] at h2
    rcases List.mem_append.mp h2 with h3 | h3
    on_goal 2 => revert h3; decide
    rcases List.mem_append.mp h3 with h4 | h4
    on_goal 2 => exact format_size_no_nl _ h4
    rcases List.mem_append.mp h4 with h5 | h5
    on_goal 2 => revert h5; decide
    rcases List.mem_append.mp h5 with h6 | h6
    on_goal 2 => exact format_size_no_nl _ h6
    rcases List.mem_append.mp h6 with h7 | h7
    on_goal 2 => revert h7; decide
    rcases List.mem_append.mp h7 with h8 | h8
    on_goal 2 => exact oneDecimalOf_no_nl _ _ h8
    rcases List.mem_append.mp h8 with h9 | h9
    on_goal 2 => revert h9; decide
    rcases List.mem_append.mp h9 with h10 | h10
    · revert h10; decide
    · exact progress_bar_no_nl c t h10

/-- Witness for C7: the amended theorem applied at `current = 1`,
`total = 2`. -/
theorem claim_C7_progress_witness :
    (progress_bar 1 2).length = 30 ∧
    (progress_bar 1 2).data =
      List.replicate (30 * 1 / 2) '=' ++ List.replicate (30 - 30 * 1 / 2) '-' ∧
    progress_callback 1 2 =
      "\r  [" ++ progress_bar 1 2 ++ "] " ++ oneDecimalOf (100 * (1 : ℤ)) 2 ++ "% (" ++
        format_size (some (1 : ℤ)) ++ "/" ++ format_size (some (2 : ℤ)) ++ ")" ∧
    '\n' ∉ (progress_callback 1 2).data :=
  claim_C7_progress 1 2 (by decide) (by decide)

lemma makedirs_files (dir : String) (fs : FS) : (makedirs dir fs).files = fs.files := by
  unfold makedirs
  split <;> rfl

lemma runLoop_success (dir : String) (dl : ℕ → DlOutcome) (hdl : ∀ j, dl j = .success) :
    ∀ (ms : List Message) (i0 k d s e : ℕ) (fs : FS),
      k ≤ ms.length →
      (itemPaths dir i0 ms).Nodup →
      (∀ p ∈ (itemPaths dir i0 ms).take k, p ∈ fs.files) →
      (∀ p ∈ (itemPaths dir i0 ms).drop k, p ∉ fs.files) →
      runLoop dir dl i0 ms d s e fs =
        .done (d + (ms.length - k)) (s + k) e
          { fs with files := ((itemPaths dir i0 ms).drop k).reverse ++ fs.files } := by
  intro ms
  induction ms with
  | nil =>
    intro i0 k d s e fs hk _ _ _
    have hk0 : k = 0 := by simpa using hk
    subst hk0
    simp [runLoop, itemPaths]
  | cons m rest ih =>
    intro i0 k d s e fs hk hnd hpre hnew
    simp only [itemPaths] at hnd hpre hnew
    cases k with
    | zero =>
      have hp : osPathJoin dir (get_video_filename m i0) ∉ fs.files :=
        hnew _ (by simp)
      simp only [runLoop]
      rw [if_neg hp, hdl i0]
      have hrec := ih (i0 + 1) 0 (d + 1) s e
        { fs with files := osPathJoin dir (get_video_filename m i0) :: fs.files }
        (Nat.zero_le _) (List.nodup_cons.mp hnd).2
        (by intro p hp2; simp at hp2)
        (by
          intro q hq hmem
          rcases List.mem_cons.mp hmem with h1 | h1
          · subst h1
            exact (List.nodup_cons.mp hnd).1 (by simpa using hq)
          · exact hnew q (List.mem_cons_of_mem _ (by simpa using hq)) h1)
      rw [hrec]
      simp only [List.drop_zero, itemPaths, List.reverse_cons, List.length_cons]
      congr 1
      · omega
      · rw [List.append_assoc]
        rfl
    | succ k2 =>
      have hp : osPathJoin dir (get_video_filename m i0) ∈ fs.files :=
        hpre _ (by simp [List.take_succ_cons])
      simp only [runLoop]
      rw [if_pos hp]
      have hrec := ih (i0 + 1) k2 d (s + 1) e fs
        (by simpa using hk) (List.nodup_cons.mp hnd).2
        (by
          intro p hp2
          exact hpre p (by simp [List.take_succ_cons, hp2]))
        (by
          intro p hp2
          exact hnew p (by simpa [List.drop_succ_cons] using hp2))
      rw [hrec]
      simp only [List.drop_succ_cons, List.length_cons]
      congr 1
      · omega
      · omega

lemma itemPaths_get? (dir : String) :
    ∀ (ms : List Message) (i0 j : ℕ),
      (itemPaths dir i0 ms).get? j =
        (ms.get? j).map (fun m => osPathJoin dir (get_video_filename m (i0 + j))) := by
  intro ms
  induction ms with
  | nil => intro i0 j; simp [itemPaths]
  | cons m rest ih =>
    intro i0 j
    cases j with
    | zero => simp [itemPaths]
    | succ j2 =>
      simp only [itemPaths, List.get?]
      have e : i0 + 1 + j2 = i0 + (j2 + 1) := by omega
      rw [ih (i0 + 1) j2, e]

/-- Claim C5: if the API id, the API secret or the chat id is left at its
placeholder/zero value, `download_videos` returns the config-error report
immediately, with the filesystem untouched; since the environment (chat
resolution, messages, download outcomes) is universally quantified and
does not occur in the result, no network or filesystem operation is
consulted or performed. -/
theorem claim_C5_config_gate (env : Env) (fs0 : FS)
    (h : env.API_ID = 0 ∨ env.API_HASH = "" ∨ env.CHAT_ID = 0) :
    download_videos env fs0 = .configError fs0 := by
  unfold download_videos
  rw [if_pos h]

/-- Witness for C5: the gate fires on a concrete environment with
`API_ID = 0`. -/
theorem claim_C5_config_gate_witness :
    download_videos envZero fsT = .configError fsT :=
  claim_C5_config_gate envZero fsT (Or.inl rfl)

/-- Claim C9: with a valid configuration, successful chat resolution and
no video messages, the run ends in the `noVideos` report (the early
return printing the "no videos" line), the file set is unchanged (only
the download directory is ensured), and no item is downloaded, skipped or
errored. -/
theorem claim_C9_no_videos (env : Env) (fs0 : FS)
    (hcfg : ¬(env.API_ID = 0 ∨ env.API_HASH = "" ∨ env.CHAT_ID = 0))
    (hres : env.resolveOk = true)
    (hmsg : env.messages = []) :
    download_videos env fs0 = .noVideos (makedirs env.DOWNLOAD_DIR fs0) ∧
    (makedirs env.DOWNLOAD_DIR fs0).files = fs0.files := by
  refine ⟨?_, makedirs_files _ _⟩
  unfold download_videos
  rw [if_neg hcfg, hres]
  simp [hmsg]

/-- Witness for C9: concrete environment whose chat has no videos. -/
theorem claim_C9_no_videos_witness :
    download_videos envNoVid fsT = .noVideos (makedirs envNoVid.DOWNLOAD_DIR fsT) ∧
    (makedirs envNoVid.DOWNLOAD_DIR fsT).files = fsT.files :=
  claim_C9_no_videos envNoVid fsT (by decide) rfl rfl

/-- Claim C1: for a run with valid configuration, successful resolution
and all downloads succeeding, over a chat whose (pairwise distinct)
deterministic destination paths are on disk exactly for the oldest `k` of
the `n` video messages, the orchestrator skips exactly those `k` items
(`skipped = k`), downloads exactly the remaining `n - k`
(`downloaded = n - k`, no errors), and the previously existing files are
untouched (they form a suffix of the final file list): re-running is
idempotent, no file is re-downloaded or duplicated. -/
theorem claim_C1_idempotent (env : Env) (fs0 : FS) (k : ℕ)
    (hcfg : ¬(env.API_ID = 0 ∨ env.API_HASH = "" ∨ env.CHAT_ID = 0))
    (hres : env.resolveOk = true)
    (hne : env.messages ≠ [])
    (hdl : ∀ j, env.dl j = .success)
    (hk : k ≤ env.messages.length)
    (hnd : (itemPaths env.DOWNLOAD_DIR 1 env.messages.reverse).Nodup)
    (hpre : ∀ p ∈ (itemPaths env.DOWNLOAD_DIR 1 env.messages.reverse).take k, p ∈ fs0.files)
    (hnew : ∀ p ∈ (itemPaths env.DOWNLOAD_DIR 1 env.messages.reverse).drop k, p ∉ fs0.files) :
    download_videos env fs0 =
      .done (env.messages.length - k) k 0
        { makedirs env.DOWNLOAD_DIR fs0 with
          files := ((itemPaths env.DOWNLOAD_DIR 1 env.messages.reverse).drop k).reverse ++
            fs0.files } := by
  have hmk : (makedirs env.DOWNLOAD_DIR fs0).files = fs0.files := makedirs_files _ _
  unfold download_videos
  rw [if_neg hcfg, hres, if_pos rfl]
  have hlen0 : ¬ env.messages.reverse.length = 0 := by
    simpa [List.length_reverse, List.length_eq_zero] using hne
  rw [if_neg hlen0]
  have hrun := runLoop_success env.DOWNLOAD_DIR env.dl hdl env.messages.reverse 1 k 0 0 0
    (makedirs env.DOWNLOAD_DIR fs0)
    (by simpa [List.length_reverse] using hk) hnd
    (by intro p hp; rw [hmk]; exact hpre p hp)
    (by intro p hp; rw [hmk]; exact hnew p hp)
  rw [hrun]
  simp only [Nat.zero_add, List.length_reverse, hmk]

/-- Witness for C1: the concrete two-message environment `envT` with the
oldest message's file already on disk downloads one item and skips one. -/
theorem claim_C1_idempotent_witness :
    download_videos envT fsT =
      .done (envT.messages.length - 1) 1 0
        { makedirs envT.DOWNLOAD_DIR fsT with
          files := ((itemPaths envT.DOWNLOAD_DIR 1 envT.messages.reverse).drop 1).reverse ++
            fsT.files } :=
  claim_C1_idempotent envT fsT 1 (by decide) rfl (by decide) (fun _ => rfl) (by decide)
    (by decide) (by decide) (by decide)

/-- Claim C8: the orchestrator processes `env.messages.reverse`, i.e. the
collected list reversed in memory (oldest first), pairing the `j`-th
element (0-based) of that reversed sequence with the 1-based index
`1 + j`: on a fresh directory with all downloads succeeding, the files
created are exactly the destination paths of the reversed sequence
indexed from 1, and the second conjunct identifies the `j`-th destination
path as the one built from the `j`-th message of the reversed sequence
and index `1 + j`. -/
theorem claim_C8_order (env : Env) (fs0 : FS)
    (hcfg : ¬(env.API_ID = 0 ∨ env.API_HASH = "" ∨ env.CHAT_ID = 0))
    (hres : env.resolveOk = true)
    (hne : env.messages ≠ [])
    (hdl : ∀ j, env.dl j = .success)
    (hnd : (itemPaths env.DOWNLOAD_DIR 1 env.messages.reverse).Nodup)
    (hfresh : ∀ p ∈ itemPaths env.DOWNLOAD_DIR 1 env.messages.reverse, p ∉ fs0.files) :
    download_videos env fs0 =
      .done env.messages.length 0 0
        { makedirs env.DOWNLOAD_DIR fs0 with
          files := (itemPaths env.DOWNLOAD_DIR 1 env.messages.reverse).reverse ++
            fs0.files } ∧
    ∀ j, (itemPaths env.DOWNLOAD_DIR 1 env.messages.reverse).get? j =
      (env.messages.reverse.get? j).map
        (fun m => osPathJoin env.DOWNLOAD_DIR (get_video_filename m (1 + j))) := by
  constructor
  · have hmk : (makedirs env.DOWNLOAD_DIR fs0).files = fs0.files := makedirs_files _ _
    unfold download_videos
    rw [if_neg hcfg, hres, if_pos rfl]
    have hlen0 : ¬ env.messages.reverse.length = 0 := by
      simpa [List.length_reverse, List.length_eq_zero] using hne
    rw [if_neg hlen0]
    have hrun := runLoop_success env.DOWNLOAD_DIR env.dl hdl env.messages.reverse 1 0 0 0 0
      (makedirs env.DOWNLOAD_DIR fs0)
      (Nat.zero_le _) hnd
      (by intro p hp; simp at hp)
      (by intro p hp; rw [hmk]; exact hfresh p (by simpa using hp))
    rw [hrun]
    simp only [Nat.zero_add, Nat.sub_zero, List.drop_zero, List.length_reverse, hmk]
  · intro j
    exact itemPaths_get? env.DOWNLOAD_DIR env.messages.reverse 1 j

/-- Witness for C8: the two-message environment `envT` on an empty
directory creates the oldest message's file under index 1 and the newer
one under index 2. -/
theorem claim_C8_order_witness :
    download_videos envT fsEmpty =
      .done envT.messages.length 0 0
        { makedirs envT.DOWNLOAD_DIR fsEmpty with
          files := (itemPaths envT.DOWNLOAD_DIR 1 envT.messages.reverse).reverse ++
            fsEmpty.files } :=
  (claim_C8_order envT fsEmpty (by decide) rfl (by decide) (fun _ => rfl) (by decide)
    (by decide)).1

/-- Counterexample to C3 as stated: in the concrete environment
`envCrash` (two video messages, the first item's download failing with a
partial file left and its removal raising), the run ends in `crashed`
after the first item — the propagated `os.remove` error aborts the
remaining loop iterations (the second message is never processed and its
file is never created), contradicting "a failure of the deletion itself
is silently ignored and never aborts the remaining loop iterations". -/
theorem claim_C3_counterexample :
    download_videos envCrash fsEmpty =
      .crashed 0 0 1 { dirs := [dirD], files := [osPathJoin dirD (get_video_filename mA 1)] } ∧
    osPathJoin dirD (get_video_filename mB 2) ∉
      [osPathJoin dirD (get_video_filename mA 1)] := by decide

/-- Claim C3 (amended): when the download of an item fails and the
destination path did not exist before the attempt, the orchestrator
records the error (`errors + 1`) and: if a partial file exists and its
removal succeeds, the partial file is deleted (the file set is exactly
restored) and the loop continues with the next item; if no partial file
exists, nothing is deleted and the loop continues; but if a partial file
exists and its removal itself raises, the exception propagates and the
run aborts (`crashed`) with the partial file still present — a deletion
failure is *not* silently ignored. -/
theorem claim_C3_failure_cleanup (dir : String) (dl : ℕ → DlOutcome) (i : ℕ)
    (m : Message) (rest : List Message) (d s e : ℕ) (fs : FS)
    (hnot : osPathJoin dir (get_video_filename m i) ∉ fs.files) :
    (dl i = .failure true false →
      runLoop dir dl i (m :: rest) d s e fs = runLoop dir dl (i + 1) rest d s (e + 1) fs) ∧
    (∀ rr, dl i = .failure false rr →
      runLoop dir dl i (m :: rest) d s e fs = runLoop dir dl (i + 1) rest d s (e + 1) fs) ∧
    (dl i = .failure true true →
      runLoop dir dl i (m :: rest) d s e fs =
        .crashed d s (e + 1)
          { fs with files := osPathJoin dir (get_video_filename m i) :: fs.files }) := by
  refine ⟨?_, ?_, ?_⟩
  · intro hd
    simp only [runLoop]
    rw [if_neg hnot, hd]
    rfl
  · intro rr hd
    simp only [runLoop]
    rw [if_neg hnot, hd]
    cases rr <;> rfl
  · intro hd
    simp only [runLoop]
    rw [if_neg hnot, hd]
    rfl

/-- Witness for C3: the amended theorem's first conjunct on a concrete
one-message list with an always-failing, cleanly-removed download. -/
theorem claim_C3_failure_cleanup_witness :
    runLoop dirD dlFail 1 [mA] 0 0 0 fsEmpty = runLoop dirD dlFail 2 [] 0 0 1 fsEmpty :=
  (claim_C3_failure_cleanup dirD dlFail 1 mA [] 0 0 0 fsEmpty (by decide)).1 rfl

lemma runLoop_sum (dir : String) (dl : ℕ → DlOutcome) :
    ∀ (ms : List Message) (i0 d s e : ℕ) (fs : FS) (d2 s2 e2 : ℕ) (fs2 : FS),
      (runLoop dir dl i0 ms d s e fs = .done d2 s2 e2 fs2 →
        d2 + s2 + e2 = d + s + e + ms.length) ∧
      (runLoop dir dl i0 ms d s e fs = .crashed d2 s2 e2 fs2 →
        ∃ j, 1 ≤ j ∧ j ≤ ms.length ∧ d2 + s2 + e2 = d + s + e + j) := by
  intro ms
  induction ms with
  | nil =>
    intro i0 d s e fs d2 s2 e2 fs2
    constructor
    · intro h
      simp only [runLoop] at h
      injection h with h1 h2 h3 h4
      simp only [List.length_nil]
      omega
    · intro h
      simp only [runLoop] at h
      exact RunResult.noConfusion h
  | cons m rest ih =>
    intro i0 d s e fs d2 s2 e2 fs2
    constructor
    · intro h
      simp only [runLoop] at h
      split at h
      · have := (ih (i0 + 1) d (s + 1) e fs d2 s2 e2 fs2).1 h
        simp only [List.length_cons]
        omega
      · split at h
        · have := (ih (i0 + 1) (d + 1) s e _ d2 s2 e2 fs2).1 h
          simp only [List.length_cons]
          omega
        · split at h
          · split at h
            · exact RunResult.noConfusion h
            · have := (ih (i0 + 1) d s (e + 1) fs d2 s2 e2 fs2).1 h
              simp only [List.length_cons]
              omega
          · have := (ih (i0 + 1) d s (e + 1) fs d2 s2 e2 fs2).1 h
            simp only [List.length_cons]
            omega
    · intro h
      simp only [runLoop] at h
      split at h
      · obtain ⟨j, hj1, hj2, hj3⟩ := (ih (i0 + 1) d (s + 1) e fs d2 s2 e2 fs2).2 h
        refine ⟨j + 1, by omega, ?_, by omega⟩
        simp only [List.length_cons]
        omega
      · split at h
        · obtain ⟨j, hj1, hj2, hj3⟩ := (ih (i0 + 1) (d + 1) s e _ d2 s2 e2 fs2).2 h
          refine ⟨j + 1, by omega, ?_, by omega⟩
          simp only [List.length_cons]
          omega
        · split at h
          · split at h
            · injection h with h1 h2 h3 h4
              refine ⟨1, by omega, ?_, by omega⟩
              simp only [List.length_cons]
              omega
            · obtain ⟨j, hj1, hj2, hj3⟩ := (ih (i0 + 1) d s (e + 1) fs d2 s2 e2 fs2).2 h
              refine ⟨j + 1, by omega, ?_, by omega⟩
              simp only [List.length_cons]
              omega
          · obtain ⟨j, hj1, hj2, hj3⟩ := (ih (i0 + 1) d s (e + 1) fs d2 s2 e2 fs2).2 h
            refine ⟨j + 1, by omega, ?_, by omega⟩
            simp only [List.length_cons]
            omega

/-- Claim C10: each processed item increments exactly one of the three
counters, so when the loop completes (`done`, the summary printed) the
counters sum to the number of collected video messages; if the run is
aborted by a propagated cleanup error (`crashed`), the counters sum to
the number of items processed up to and including the failing one, which
is between 1 and the message count. -/
theorem claim_C10_counters (env : Env) (fs0 : FS) (d s e : ℕ) (fs2 : FS) :
    (download_videos env fs0 = .done d s e fs2 → d + s + e = env.messages.length) ∧
    (download_videos env fs0 = .crashed d s e fs2 →
      ∃ j, 1 ≤ j ∧ j ≤ env.messages.length ∧ d + s + e = j) := by
  constructor
  · intro h
    unfold download_videos at h
    split at h
    · exact RunResult.noConfusion h
    · split at h
      · simp only at h
        split at h
        · exact RunResult.noConfusion h
        · have := (runLoop_sum env.DOWNLOAD_DIR env.dl env.messages.reverse 1 0 0 0
            (makedirs env.DOWNLOAD_DIR fs0) d s e fs2).1 h
          simpa [List.length_reverse] using this
      · exact RunResult.noConfusion h
  · intro h
    unfold download_videos at h
    split at h
    · exact RunResult.noConfusion h
    · split at h
      · simp only at h
        split at h
        · exact RunResult.noConfusion h
        · obtain ⟨j, hj1, hj2, hj3⟩ := (runLoop_sum env.DOWNLOAD_DIR env.dl
            env.messages.reverse 1 0 0 0 (makedirs env.DOWNLOAD_DIR fs0) d s e fs2).2 h
          exact ⟨j, hj1, by simpa [List.length_reverse] using hj2, by omega⟩
      · exact RunResult.noConfusion h

/-- Witness for C10: the concrete run of `envT` over `fsT` completes with
`downloaded = 1`, `skipped = 1`, `errors = 0`, summing to the two
collected messages. -/
theorem claim_C10_counters_witness :
    1 + 1 + 0 = envT.messages.length :=
  (claim_C10_counters envT fsT 1 1 0
    { dirs := [dirD],
      files := [osPathJoin dirD (get_video_filename mB 2),
                osPathJoin dirD (get_video_filename mA 1)] }).1 (by decide)
